import Mathlib

/-!
Verification development for the monocular MR core of `bulgakov_game`:
the Plane Mapper (`src/mr/mapping/plane-mapper.ts`) and the Tracking
Controller (`createTrackingController`).

The numeric model is a shallow embedding over an arbitrary linear ordered
field `K`.  Instantiating `K := ℚ` gives an executable model (JavaScript
float inputs are dyadic rationals, and all mapper arithmetic is field
arithmetic); instantiating `K := ℝ` gives the idealized real-arithmetic
model used for the unit-length invariants.  The two transcendental
primitives the mapper consumes, `Math.sqrt` and `Math.pow`, are passed as
explicit function parameters `sqrtFn : K → K` and `qpow : K → K → K`:
theorems either hold for every choice of these functions or carry the
(true of the real functions) bounds they need as hypotheses, and concrete
executions instantiate `sqrtFn` with `ratSqrt`, which agrees with the real
square root on perfect squares of rationals (every decision-relevant
square root in those executions is taken at a perfect square).
-/

set_option maxRecDepth 400000
set_option maxHeartbeats 2000000
set_option linter.unusedSectionVars false

section Scalar

variable {K : Type} [LinearOrderedField K]

/-- Integer square root by fuel-bounded Newton iteration (structural
recursion, so it reduces in the kernel).  Exact on perfect squares. -/
def isqrtGo (n : ℕ) : ℕ → ℕ → ℕ
  | 0, x => x
  | fuel + 1, x =>
    let y := (x + n / x) / 2
    if y < x then isqrtGo n fuel y else x

/-- Integer square root (exact on perfect squares). -/
def isqrt (n : ℕ) : ℕ :=
  if n ≤ 1 then n else isqrtGo n n (n / 2 + 1)

/-- Model of `Math.sqrt` on rationals: exact whenever the argument is the
square of a rational (numerator and denominator of the reduced form are
then perfect squares).  Only used to instantiate the `sqrtFn` parameter at
concrete inputs whose decision-relevant square roots are perfect squares. -/
def ratSqrt (q : ℚ) : ℚ := (isqrt q.num.toNat : ℚ) / (isqrt q.den : ℚ)

/-- `THREE.MathUtils.lerp(x, y, t) = (1 - t) * x + t * y`. -/
def lerp (x y t : K) : K := (1 - t) * x + t * y

/-- `THREE.MathUtils.clamp(value, min, max) = Math.max(min, Math.min(max, value))`. -/
def clamp (value lo hi : K) : K := max lo (min hi value)

end Scalar

section Geometry

variable {K : Type} [LinearOrderedField K]

/-- `THREE.Quaternion` (components x, y, z, w). -/
structure Quat (K : Type) where
  x : K
  y : K
  z : K
  w : K
deriving DecidableEq

/-- The identity quaternion `new THREE.Quaternion()`. -/
def Quat.one : Quat K := ⟨0, 0, 0, 1⟩

/-- Squared norm of a quaternion. -/
def Quat.normSq (q : Quat K) : K := q.x * q.x + q.y * q.y + q.z * q.z + q.w * q.w

/-- `THREE.Vector3`. -/
structure Vec3 (K : Type) where
  x : K
  y : K
  z : K
deriving DecidableEq

namespace Vec3

variable {K : Type} [LinearOrderedField K]

def add (a b : Vec3 K) : Vec3 K := ⟨a.x + b.x, a.y + b.y, a.z + b.z⟩

def sub (a b : Vec3 K) : Vec3 K := ⟨a.x - b.x, a.y - b.y, a.z - b.z⟩

/-- `THREE.Vector3.multiplyScalar`. -/
def smul (a : Vec3 K) (s : K) : Vec3 K := ⟨a.x * s, a.y * s, a.z * s⟩

def dot (a b : Vec3 K) : K := a.x * b.x + a.y * b.y + a.z * b.z

def cross (a b : Vec3 K) : Vec3 K :=
  ⟨a.y * b.z - a.z * b.y, a.z * b.x - a.x * b.z, a.x * b.y - a.y * b.x⟩

def lengthSq (a : Vec3 K) : K := a.x * a.x + a.y * a.y + a.z * a.z

/-- `THREE.Vector3.lerp(v, alpha)`: componentwise `x += (v.x - x) * alpha`. -/
def lerp (a v : Vec3 K) (alpha : K) : Vec3 K :=
  ⟨a.x + (v.x - a.x) * alpha, a.y + (v.y - a.y) * alpha, a.z + (v.z - a.z) * alpha⟩

/-- `THREE.Vector3.normalize()`: `divideScalar(length || 1)` — the zero
vector is left unchanged. -/
def normalize (sqrtFn : K → K) (a : Vec3 K) : Vec3 K :=
  let l := sqrtFn a.lengthSq
  let d := if l = 0 then 1 else l
  ⟨a.x / d, a.y / d, a.z / d⟩

/-- `THREE.Vector3.distanceTo`. -/
def distanceTo (sqrtFn : K → K) (a b : Vec3 K) : K := sqrtFn (a.sub b).lengthSq

/-- `THREE.Vector3.applyQuaternion(q)` (the `t = 2 q × v` form used by three.js). -/
def applyQuaternion (v : Vec3 K) (q : Quat K) : Vec3 K :=
  let tx := 2 * (q.y * v.z - q.z * v.y)
  let ty := 2 * (q.z * v.x - q.x * v.z)
  let tz := 2 * (q.x * v.y - q.y * v.x)
  ⟨v.x + q.w * tx + (q.y * tz - q.z * ty),
   v.y + q.w * ty + (q.z * tx - q.x * tz),
   v.z + q.w * tz + (q.x * ty - q.y * tx)⟩

end Vec3

/-- A pose as consumed by the mapper and produced by the controller:
`{ position: THREE.Vector3, quaternion: THREE.Quaternion }`. -/
structure TrackingPose (K : Type) where
  position : Vec3 K
  quaternion : Quat K
deriving DecidableEq

end Geometry

section Mapper

variable {K : Type} [LinearOrderedField K] [FloorRing K]

/-- `WorldSurface` from `plane-mapper.ts`. -/
structure WorldSurface (K : Type) where
  id : String
  normal : Vec3 K
  constant : K
  center : Vec3 K
  extent : K
  confidence : K
  lastSeen : K
deriving DecidableEq

/-- `PlaneMapperOptions` from `plane-mapper.ts`.  `ransacIterations` is a
loop bound and is modelled as a natural number. -/
structure PlaneMapperOptions (K : Type) where
  maxDepthMeters : K
  minDepthMeters : K
  sampleStride : K
  ransacIterations : ℕ
  inlierThreshold : K
  minDepth01 : K
  maxDepth01 : K
  maxSurfaceAgeMs : K
  confidenceDecay : K

/-- The `DEFAULTS` options record. -/
def DEFAULTS : PlaneMapperOptions K :=
  { maxDepthMeters := 12/5
    minDepthMeters := 3/10
    sampleStride := 4
    ransacIterations := 60
    inlierThreshold := 1/25
    minDepth01 := 1/50
    maxDepth01 := 49/50
    maxSurfaceAgeMs := 5000
    confidenceDecay := 23/25 }

/-- `DepthResult` (`src/depth/depth.ts`): a row-major normalized depth
buffer.  An entry `some d` is a finite stored float `d`; `none` models a
non-finite stored value (`Number.isFinite` fails); an index beyond the
list models an out-of-bounds read of the backing `Float32Array`
(JavaScript yields `undefined` there). -/
structure DepthResult (K : Type) where
  width : ℕ
  height : ℕ
  depth01 : List (Option K)

/-- The camera intrinsics the mapper reads.  The source computes
`tanFov = Math.tan(THREE.MathUtils.degToRad(camera.fov) / 2)` from
`camera.fov`; the intrinsics enter all further arithmetic only through
that precomputed value and `camera.aspect`, so the model takes `tanFov`
itself as the field. -/
structure CameraIntrinsics (K : Type) where
  tanFov : K
  aspect : K

/-- An ephemeral RANSAC plane candidate (the anonymous record returned by
`ransacPlane`). -/
structure PlaneCandidate (K : Type) where
  normal : Vec3 K
  constant : K
  center : Vec3 K
  extent : K
  confidence : K
deriving DecidableEq

/-- Index sequence of `for (v = 0; v < n; v += stride)`. -/
def strideSeq (n stride : ℕ) : List ℕ := (List.range n).filter (fun v => v % stride == 0)

/-- The body of the sampling loop of `PlaneMapper.samplePoints` for pixel
`(x, y)`: `none` when the pixel is rejected (`continue`), `some p` when the
world-space point `p` is pushed. -/
def pixelSample (opts : PlaneMapperOptions K) (depth : DepthResult K)
    (cam : CameraIntrinsics K) (pose : TrackingPose K) (scaleMeters : K)
    (x y : ℕ) : Option (Vec3 K) :=
  let w := depth.width
  let h := depth.height
  -- const d01 = depth.depth01[i] ?? 0.5
  let d01opt : Option K :=
    match depth.depth01[y * w + x]? with
    | none => some (1/2)
    | some v => v
  match d01opt with
  | none => none                                   -- !Number.isFinite(d01)
  | some d01 =>
    if d01 < opts.minDepth01 ∨ opts.maxDepth01 < d01 then none
    else
      let z := lerp opts.minDepthMeters opts.maxDepthMeters d01 * scaleMeters
      let nx := ((x : K) / ((w : K) - 1)) * 2 - 1
      let ny := -(((y : K) / ((h : K) - 1)) * 2 - 1)
      let aspect := if cam.aspect = 0 then 1 else cam.aspect  -- camera.aspect || 1
      let vx := nx * cam.tanFov * aspect
      let vy := ny * cam.tanFov
      let camPoint : Vec3 K := ⟨vx * z, vy * z, -z⟩
      some ((camPoint.applyQuaternion pose.quaternion).add pose.position)

/-- `PlaneMapper.samplePoints`. -/
def samplePoints (opts : PlaneMapperOptions K) (depth : DepthResult K)
    (cam : CameraIntrinsics K) (pose : TrackingPose K) (scaleMeters : K) :
    List (Vec3 K) :=
  let stride := (max 1 ⌊opts.sampleStride⌋).toNat
  (strideSeq depth.height stride).flatMap fun y =>
    (strideSeq depth.width stride).filterMap fun x =>
      pixelSample opts depth cam pose scaleMeters x y

/-- The iteration loop of `PlaneMapper.ransacPlane`.  The stream of
`Math.floor(Math.random() * points.length)` index triples is an explicit
oracle `draws` (a missing entry behaves like the `!a || !b || !c` guard of
an out-of-range index). -/
def ransacLoop (sqrtFn : K → K) (opts : PlaneMapperOptions K)
    (draws : List (ℕ × ℕ × ℕ)) (points : List (Vec3 K)) :
    List (Vec3 K) × Option (Vec3 K × K) :=
  (List.range opts.ransacIterations).foldl
    (fun best i =>
      match draws[i]? with
      | none => best
      | some (ia, ib, ic) =>
        match points[ia]?, points[ib]?, points[ic]? with
        | some a, some b, some c =>
          let ab := b.sub a
          let ac := c.sub a
          let normal := ab.cross ac
          if normal.lengthSq < 1/1000000 then best
          else
            let n := normal.normalize sqrtFn
            let constant := -(n.dot a)
            let inliers := points.filter fun p => decide (|n.dot p + constant| ≤ opts.inlierThreshold)
            if best.1.length < inliers.length then (inliers, some (n, constant)) else best
        | _, _, _ => best)
    ([], none)

/-- `PlaneMapper.ransacPlane`. -/
def ransacPlane (sqrtFn : K → K) (opts : PlaneMapperOptions K)
    (draws : List (ℕ × ℕ × ℕ)) (points : List (Vec3 K)) :
    Option (PlaneCandidate K) :=
  let best := ransacLoop sqrtFn opts draws points
  match best.2 with
  | none => none
  | some nc =>
    if best.1.length < 40 then none
    else
      let center := (best.1.foldl (fun acc p => acc.add p) (⟨0, 0, 0⟩ : Vec3 K)).smul
        (1 / (best.1.length : K))
      let extent := best.1.foldl
        (fun e p => let d := Vec3.distanceTo sqrtFn p center; if e < d then d else e) (3/10)
      let ratioV := (best.1.length : K) / max 1 (points.length : K)
      some
        { normal := nc.1
          constant := nc.2
          center := center
          extent := min 2 extent
          confidence := clamp (ratioV * (16/10)) (3/10) 1 }

/-- `PlaneMapper.findSimilarSurface`, returning the index of the first
surface passing the alignment and plane-constant tests (the source returns
the surface object itself and mutates it in place; the index identifies
that position). -/
def findSimilarIdx : List (WorldSurface K) → Vec3 K → K → Option ℕ
  | [], _, _ => none
  | s :: rest, normal, constant =>
    if 23/25 ≤ s.normal.dot normal ∧ |s.constant - constant| < 1/4 then some 0
    else (findSimilarIdx rest normal constant).map (· + 1)

/-- The in-place fusion of an existing surface with a candidate
(the `if (existing)` branch of `updateFromDepth`). -/
def fuseSurface (sqrtFn : K → K) (s : WorldSurface K) (p : PlaneCandidate K) (now : K) :
    WorldSurface K :=
  { s with
    normal := (s.normal.lerp p.normal (1/5)).normalize sqrtFn
    constant := lerp s.constant p.constant (1/5)
    center := s.center.lerp p.center (1/5)
    extent := lerp s.extent p.extent (1/5)
    confidence := min 1 (lerp s.confidence p.confidence (2/5) + 1/10)
    lastSeen := now }

/-- The insertion of a fresh surface (the `else` branch of
`updateFromDepth`); `newId` is the random id oracle. -/
def newSurface (newId : String) (p : PlaneCandidate K) (now : K) : WorldSurface K :=
  { id := newId
    normal := p.normal
    constant := p.constant
    center := p.center
    extent := p.extent
    confidence := max (1/2) p.confidence
    lastSeen := now }

/-- Fuse the candidate into the first similar surface, or append a new
surface. -/
def fuseOrInsert (sqrtFn : K → K) (surfaces : List (WorldSurface K))
    (p : PlaneCandidate K) (now : K) (newId : String) : List (WorldSurface K) :=
  match findSimilarIdx surfaces p.normal p.constant with
  | some i =>
    match surfaces[i]? with
    | some s => surfaces.set i (fuseSurface sqrtFn s p now)
    | none => surfaces
  | none => surfaces ++ [newSurface newId p now]

/-- The decay step applied to one surface inside `decayAndPrune`;
`qpow` models `Math.pow`. -/
def decaySurface (qpow : K → K → K) (opts : PlaneMapperOptions K) (now : K)
    (s : WorldSurface K) : WorldSurface K :=
  let age := now - s.lastSeen
  if 0 < age then
    { s with confidence := max 0 (s.confidence * qpow opts.confidenceDecay (age / 1000)) }
  else s

/-- Stable insertion into a list sorted by non-increasing confidence. -/
def insertByConfidence (s : WorldSurface K) : List (WorldSurface K) → List (WorldSurface K)
  | [] => [s]
  | t :: ts => if t.confidence < s.confidence then s :: t :: ts else t :: insertByConfidence s ts

/-- Model of `Array.prototype.sort((a, b) => b.confidence - a.confidence)`:
a stable sort by non-increasing confidence (insertion sort). -/
def sortByConfidence : List (WorldSurface K) → List (WorldSurface K)
  | [] => []
  | s :: ss => insertByConfidence s (sortByConfidence ss)

/-- `PlaneMapper.decayAndPrune`. -/
def decayAndPrune (qpow : K → K → K) (opts : PlaneMapperOptions K) (now : K)
    (surfaces : List (WorldSurface K)) : List (WorldSurface K) :=
  sortByConfidence
    ((surfaces.map (decaySurface qpow opts now)).filter fun s =>
      decide (now - s.lastSeen ≤ opts.maxSurfaceAgeMs) && decide (1/5 < s.confidence))

/-- `PlaneMapper.updateFromDepth` as a function on the stored surface
list.  `now` is the `performance.now()` oracle, `draws` the RANSAC index
oracle, `newId` the random-id oracle. -/
def updateFromDepth (sqrtFn : K → K) (qpow : K → K → K) (opts : PlaneMapperOptions K)
    (surfaces : List (WorldSurface K)) (depth : DepthResult K) (cam : CameraIntrinsics K)
    (pose : TrackingPose K) (scaleMeters : K) (now : K) (draws : List (ℕ × ℕ × ℕ))
    (newId : String) : List (WorldSurface K) :=
  let points := samplePoints opts depth cam pose scaleMeters
  if points.length < 30 then surfaces
  else
    match ransacPlane sqrtFn opts draws points with
    | none => surfaces
    | some plane => decayAndPrune qpow opts now (fuseOrInsert sqrtFn surfaces plane now newId)

/-- `PlaneMapper.getSurfaces`. -/
def getSurfaces (surfaces : List (WorldSurface K)) : List (WorldSurface K) := surfaces

/-- The states of the surface store reachable from the empty initial
state by a sequence of `updateFromDepth` calls (arbitrary depth buffers,
cameras, poses, scales, timestamps and oracles; `sqrtFn`, `qpow` and the
options are fixed at construction). -/
inductive ReachableSurfaces (sqrtFn : K → K) (qpow : K → K → K)
    (opts : PlaneMapperOptions K) : List (WorldSurface K) → Prop
  | init : ReachableSurfaces sqrtFn qpow opts []
  | step {l : List (WorldSurface K)} (depth : DepthResult K) (cam : CameraIntrinsics K)
      (pose : TrackingPose K) (scaleMeters now : K) (draws : List (ℕ × ℕ × ℕ))
      (newId : String) :
      ReachableSurfaces sqrtFn qpow opts l →
      ReachableSurfaces sqrtFn qpow opts
        (updateFromDepth sqrtFn qpow opts l depth cam pose scaleMeters now draws newId)

end Mapper

section Controller

/-- `TrackingStatus` from the controller module. -/
inductive TrackingStatus
  | idle
  | initializing
  | tracking
  | lost
  | unavailable
deriving DecidableEq

/-- The value stored in `stats.mode`. -/
inductive TrackerMode
  | alva
  | sensor
deriving DecidableEq

/-- `TrackingStats`. -/
structure TrackingStats (K : Type) where
  frames : ℕ
  tracked : ℕ
  lostCount : ℕ
  mode : Option TrackerMode
  jitterPos : K
  jitterAng : K
  lastPoseAgeMs : K
deriving DecidableEq

/-- `DEFAULT_POSE`: origin position, identity quaternion. -/
def DEFAULT_POSE {K : Type} [LinearOrderedField K] : TrackingPose K :=
  ⟨⟨0, 0, 0⟩, Quat.one⟩

/-- The mutable closure state of `createTrackingController`.  `alvaActive`
models `alva && canvas && ctx` being non-null; `trackerCalls` is a ghost
counter incremented exactly where `alva.findCameraPose` is invoked. -/
structure CtrlState (K : Type) where
  status : TrackingStatus
  pose : TrackingPose K
  planePose : Option (TrackingPose K)
  lastPoints : Option (List (K × K) × ℕ × ℕ)
  frameW : ℕ
  frameH : ℕ
  alvaActive : Bool
  lastAlvaT : K
  lostSince : Option K
  lastPoseT : K
  lastRawPose : Option (TrackingPose K)
  lastRawT : K
  linearVel : Vec3 K
  angularAxis : Vec3 K
  angularSpeed : K
  hasPose : Bool
  orientationQ : Quat K
  velocity : Vec3 K
  position : Vec3 K
  stats : TrackingStats K
  trackerCalls : ℕ

/-- The closure state right after `createTrackingController(params)`. -/
def initCtrlState {K : Type} [LinearOrderedField K] (width height : ℕ) : CtrlState K :=
  { status := .idle
    pose := DEFAULT_POSE
    planePose := none
    lastPoints := none
    frameW := width
    frameH := height
    alvaActive := false
    lastAlvaT := 0
    lostSince := none
    lastPoseT := 0
    lastRawPose := none
    lastRawT := 0
    linearVel := ⟨0, 0, 0⟩
    angularAxis := ⟨0, 1, 0⟩
    angularSpeed := 0
    hasPose := false
    orientationQ := Quat.one
    velocity := ⟨0, 0, 0⟩
    position := ⟨0, 0, 0⟩
    stats := { frames := 0, tracked := 0, lostCount := 0, mode := none,
               jitterPos := 0, jitterAng := 0, lastPoseAgeMs := 0 }
    trackerCalls := 0 }

/-- Environment of one `start()` call.  `moduleLoads` is the outcome of
`loadAlvaModule` (whose internal failures are caught, yielding `null`);
`initResolves` states whether the awaited `AlvaAR.Initialize` promise
resolves (`false`: it rejects); `hasDeviceOrientationAPI` models
`typeof window !== "undefined" && "DeviceOrientationEvent" in window`;
`permissionRequired` models `requestPermission` being a function, and
`permissionOutcome` its result (`none`: the call threw, which is caught). -/
structure StartEnv where
  moduleLoads : Bool
  initResolves : Bool
  hasDeviceOrientationAPI : Bool
  permissionRequired : Bool
  permissionOutcome : Option Bool

namespace Tracking

variable {K : Type} [LinearOrderedField K]

/-- `start()` as a function from the environment and the closure state to
either a rejection (`Except.error`) or the post-start state.  The only
uncaught rejection point is the `await mod.AlvaAR.Initialize(...)` call,
which sits outside every try/catch in the source. -/
def start (env : StartEnv) (s : CtrlState K) : Except Unit (CtrlState K) :=
  let s := { s with status := .initializing }
  if env.moduleLoads then
    if env.initResolves then
      .ok { s with alvaActive := true, status := .tracking,
                   stats := { s.stats with mode := some .alva } }
    else .error ()
  else if env.hasDeviceOrientationAPI then
    if env.permissionRequired then
      match env.permissionOutcome with
      | none => .ok { s with status := .unavailable }
      | some granted =>
        if granted then
          .ok { s with status := .tracking, stats := { s.stats with mode := some .sensor } }
        else .ok { s with status := .unavailable }
    else .ok { s with status := .tracking, stats := { s.stats with mode := some .sensor } }
  else .ok { s with status := .unavailable }

/-- `getPose()`. -/
def getPose (s : CtrlState K) : TrackingPose K := s.pose

end Tracking

namespace Quat

variable {K : Type} [LinearOrderedField K]

def dot (a b : Quat K) : K := a.x * b.x + a.y * b.y + a.z * b.z + a.w * b.w

/-- `THREE.Quaternion.invert()` (the conjugate). -/
def conj (a : Quat K) : Quat K := ⟨-a.x, -a.y, -a.z, a.w⟩

def neg (a : Quat K) : Quat K := ⟨-a.x, -a.y, -a.z, -a.w⟩

/-- `THREE.Quaternion.multiplyQuaternions(a, b)`. -/
def mul (a b : Quat K) : Quat K :=
  ⟨a.x * b.w + a.w * b.x + a.y * b.z - a.z * b.y,
   a.y * b.w + a.w * b.y + a.z * b.x - a.x * b.z,
   a.z * b.w + a.w * b.z + a.x * b.y - a.y * b.x,
   a.w * b.w - a.x * b.x - a.y * b.y - a.z * b.z⟩

/-- `THREE.Quaternion.normalize()`: a zero-length quaternion becomes the
identity, otherwise every component is divided by the length. -/
noncomputable def normalizeQ (q : Quat ℝ) : Quat ℝ :=
  let l := Real.sqrt q.normSq
  if l = 0 then ⟨0, 0, 0, 1⟩ else ⟨q.x / l, q.y / l, q.z / l, q.w / l⟩

/-- `THREE.Quaternion.setFromAxisAngle(axis, angle)` (axis assumed
normalized by three.js; the source passes `angularAxis`). -/
noncomputable def setFromAxisAngle (axis : Vec3 ℝ) (angle : ℝ) : Quat ℝ :=
  let halfAngle := angle / 2
  let s := Real.sin halfAngle
  ⟨axis.x * s, axis.y * s, axis.z * s, Real.cos halfAngle⟩

end Quat

/-- `Number.EPSILON`. -/
noncomputable def numEpsilon : ℝ := 1 / 2 ^ 52

/-- `Math.atan2(y, x)`. -/
noncomputable def atan2R (y x : ℝ) : ℝ :=
  if 0 < x then Real.arctan (y / x)
  else if x < 0 then
    (if 0 ≤ y then Real.arctan (y / x) + Real.pi else Real.arctan (y / x) - Real.pi)
  else if 0 < y then Real.pi / 2
  else if y < 0 then -(Real.pi / 2)
  else 0

/-- `THREE.Quaternion.slerp(qb, t)` (`qa` plays the role of `this`). -/
noncomputable def Quat.slerp (qa qb : Quat ℝ) (t : ℝ) : Quat ℝ :=
  if t = 0 then qa
  else if t = 1 then qb
  else
    let c0 := qa.dot qb
    let qb2 := if c0 < 0 then qb.neg else qb
    let c := if c0 < 0 then -c0 else c0
    if 1 ≤ c then qa
    else
      let sqrSin := 1 - c * c
      if sqrSin ≤ numEpsilon then
        Quat.normalizeQ
          ⟨(1 - t) * qa.x + t * qb2.x, (1 - t) * qa.y + t * qb2.y,
           (1 - t) * qa.z + t * qb2.z, (1 - t) * qa.w + t * qb2.w⟩
      else
        let sinHalf := Real.sqrt sqrSin
        let halfTheta := atan2R sinHalf c
        let ratioA := Real.sin ((1 - t) * halfTheta) / sinHalf
        let ratioB := Real.sin (t * halfTheta) / sinHalf
        ⟨qa.x * ratioA + qb2.x * ratioB, qa.y * ratioA + qb2.y * ratioB,
         qa.z * ratioA + qb2.z * ratioB, qa.w * ratioA + qb2.w * ratioB⟩

/-- `SLAM_TARGET_FPS`. -/
def SLAM_TARGET_FPS : ℕ := 60

/-- `SMOOTH_HALFLIFE_POS` (0.06 s). -/
noncomputable def SMOOTH_HALFLIFE_POS : ℝ := 3 / 50

/-- `SMOOTH_HALFLIFE_ROT` (0.05 s). -/
noncomputable def SMOOTH_HALFLIFE_ROT : ℝ := 1 / 20

/-- `LOST_RESET_MS`. -/
def LOST_RESET_MS : ℝ := 1500

/-- `smoothingFactor(dt, halfLife)`; `Math.pow(0.5, e)` is `Real.rpow`. -/
noncomputable def smoothingFactor (dt halfLife : ℝ) : ℝ :=
  if dt ≤ 0 then 1 else 1 - Real.rpow (1/2) (dt / max (1/1000) halfLife)

/-- Input of one `update(dt)` tick.  `rawPose` is the result of
`alva.findCameraPose` passed through `updatePoseFromMatrix` when the
returned array has length 16, and `none` otherwise (`null` result or a
malformed shape); `planeRaw` likewise for `findPlane`.  The matrix
decoding itself is tracker-boundary conversion and is abstracted into
these inputs. -/
structure TickInput where
  now : ℝ
  dt : ℝ
  videoW : ℕ
  videoH : ℕ
  rawPose : Option (TrackingPose ℝ)
  planeRaw : Option (TrackingPose ℝ)
  framePoints : List (ℝ × ℝ)

namespace Tracking

/-- `applySmoothing(raw, dt)`. -/
noncomputable def applySmoothing (s : CtrlState ℝ) (raw : TrackingPose ℝ) (dt : ℝ) :
    CtrlState ℝ :=
  if s.hasPose = false then { s with pose := raw, hasPose := true }
  else
    let fPos := smoothingFactor dt SMOOTH_HALFLIFE_POS
    let fRot := smoothingFactor dt SMOOTH_HALFLIFE_ROT
    { s with pose := ⟨s.pose.position.lerp raw.position fPos,
                      Quat.slerp s.pose.quaternion raw.quaternion fRot⟩ }

/-- `updateJitter(raw, dt)`. -/
noncomputable def updateJitter (s : CtrlState ℝ) (raw : TrackingPose ℝ) (dt : ℝ) :
    CtrlState ℝ :=
  match s.lastRawPose with
  | none => s
  | some lrp =>
    if dt ≤ 0 then s
    else
      let dp := Vec3.distanceTo Real.sqrt raw.position lrp.position
      let dq := 2 * Real.arccos (min 1 |raw.quaternion.dot lrp.quaternion|)
      { s with stats := { s.stats with
          jitterPos := lerp s.stats.jitterPos (dp / dt) (1/10),
          jitterAng := lerp s.stats.jitterAng (dq / dt) (1/10) } }

/-- `updateMotionModel(raw, now)`. -/
noncomputable def updateMotionModel (s : CtrlState ℝ) (raw : TrackingPose ℝ) (now : ℝ) :
    CtrlState ℝ :=
  match s.lastRawPose with
  | none => { s with lastRawPose := some raw, lastRawT := now }
  | some lrp =>
    if s.lastRawT ≤ 0 then { s with lastRawPose := some raw, lastRawT := now }
    else
      let dt := max (1/1000) ((now - s.lastRawT) / 1000)
      let lv := (raw.position.sub lrp.position).smul (1 / dt)
      let delta := Quat.normalizeQ (Quat.mul (Quat.conj lrp.quaternion) raw.quaternion)
      let w := min 1 |delta.w|
      let angle := 2 * Real.arccos w
      if 1/10000 < angle then
        let sdenom := Real.sqrt (max (1/1000000) (1 - delta.w * delta.w))
        let axis0 : Vec3 ℝ := ⟨delta.x / sdenom, delta.y / sdenom, delta.z / sdenom⟩
        let axis := if delta.w < 0 then axis0.smul (-1) else axis0
        { s with linearVel := lv, angularAxis := axis, angularSpeed := angle / dt,
                 lastRawPose := some raw, lastRawT := now }
      else
        { s with linearVel := lv, angularSpeed := 0,
                 lastRawPose := some raw, lastRawT := now }

/-- The extrapolation window `Math.min(0.12, Math.max(0, (now - lastRawT) / 1000))`
of `applyPrediction`. -/
noncomputable def predictionWindow (now lastRawT : ℝ) : ℝ :=
  min (12/100) (max 0 ((now - lastRawT) / 1000))

/-- `applyPrediction(now, dt)`. -/
noncomputable def applyPrediction (s : CtrlState ℝ) (now dt : ℝ) : CtrlState ℝ :=
  match s.lastRawPose with
  | none => s
  | some lrp =>
    if s.lastRawT ≤ 0 then s
    else
      let dtp := predictionWindow now s.lastRawT
      let predictedPos := lrp.position.add (s.linearVel.smul dtp)
      let predictedQuat :=
        if 1/10000 < s.angularSpeed ∧ 1/10 < s.angularAxis.lengthSq then
          Quat.normalizeQ
            (Quat.mul lrp.quaternion (Quat.setFromAxisAngle s.angularAxis (s.angularSpeed * dtp)))
        else lrp.quaternion
      let fPos := smoothingFactor dt SMOOTH_HALFLIFE_POS
      let fRot := smoothingFactor dt SMOOTH_HALFLIFE_ROT
      { s with pose := ⟨s.pose.position.lerp predictedPos fPos,
                        Quat.slerp s.pose.quaternion predictedQuat fRot⟩ }

/-- The `stats.frames`/`stats.lastPoseAgeMs` update at the top of
`update(dt)`. -/
noncomputable def bumpFrameStats (s : CtrlState ℝ) (now : ℝ) : CtrlState ℝ :=
  let st := s.stats
  { s with stats := { st with frames := st.frames + 1, lastPoseAgeMs := max 0 (now - s.lastPoseT) } }

/-- The success branch of the tracker path of `update(dt)` after the
raw pose has been obtained. -/
noncomputable def trackSuccess (s : CtrlState ℝ) (inp : TickInput) (raw : TrackingPose ℝ) :
    CtrlState ℝ :=
  let s := updateJitter s raw inp.dt
  let s := updateMotionModel s raw inp.now
  let s := applySmoothing s raw inp.dt
  let s := { s with lastPoseT := inp.now }
  let s :=
    match inp.planeRaw with
    | some pl => { s with planePose := some pl }
    | none => s
  let st := s.stats
  { s with
      lastPoints := some (inp.framePoints, s.frameW, s.frameH)
      stats := { st with tracked := st.tracked + 1 }
      lostSince := none
      status := .tracking }

/-- The failure branch of the tracker path (`stats.lost`, loss timestamps,
timed tracker reset, `lost` status). -/
noncomputable def trackLost (s : CtrlState ℝ) (now : ℝ) : CtrlState ℝ :=
  let s := { s with stats := { s.stats with lostCount := s.stats.lostCount + 1 } }
  let s :=
    match s.lostSince with
    | none => { s with lostSince := some now }
    | some _ => s
  match s.lostSince with
  | some t0 =>
    if LOST_RESET_MS < now - t0 then { s with lostSince := none, status := .lost }
    else { s with status := .lost }
  | none => { s with status := .lost }

/-- `update(dt)` as a state transition on the closure state; `inp.now` is
the `performance.now()` oracle. -/
noncomputable def update (s : CtrlState ℝ) (inp : TickInput) : CtrlState ℝ :=
  let s := bumpFrameStats s inp.now
  if s.alvaActive then
    if 0 < inp.videoW ∧ 0 < inp.videoH then
      let minInterval : ℝ := 1000 / max 1 (SLAM_TARGET_FPS : ℝ)
      if inp.now - s.lastAlvaT < minInterval then applyPrediction s inp.now inp.dt
      else
        let s := { s with lastAlvaT := inp.now, trackerCalls := s.trackerCalls + 1 }
        match inp.rawPose with
        | some raw => trackSuccess s inp raw
        | none => applyPrediction (trackLost s inp.now) inp.now inp.dt
    else applyPrediction s inp.now inp.dt
  else
    let raw : TrackingPose ℝ := ⟨s.position, s.orientationQ⟩
    let s := updateJitter s raw inp.dt
    let s := updateMotionModel s raw inp.now
    let s := applySmoothing s raw inp.dt
    { s with lastPoseT := inp.now }

end Tracking

/-- The unit-length invariant of the controller state: the exposed pose
quaternion, the stored raw pose quaternion and the sensor orientation
quaternion all have squared norm 1 (exactly, in the idealized real
model). -/
def CtrlInv (s : CtrlState ℝ) : Prop :=
  Quat.normSq s.pose.quaternion = 1 ∧
  (∀ r, s.lastRawPose = some r → Quat.normSq r.quaternion = 1) ∧
  Quat.normSq s.orientationQ = 1

end Controller

section ConcreteInputs

/-- A camera whose precomputed `tanFov` and `aspect` are 1. -/
def camQ : CameraIntrinsics ℚ := ⟨1, 1⟩

/-- The identity pose. -/
def poseQ : TrackingPose ℚ := ⟨⟨0, 0, 0⟩, ⟨0, 0, 0, 1⟩⟩

/-- Default options with a stride of 2 and a single RANSAC iteration
(both are constructor-time options of `PlaneMapper`). -/
def optsQ : PlaneMapperOptions ℚ :=
  { (DEFAULTS : PlaneMapperOptions ℚ) with sampleStride := 2, ransacIterations := 1 }

/-- A 16 x 16 depth frame whose backing array is empty: every read is
out of bounds and defaults to 0.5, so every sampled point lies on the
camera-space plane z = -1.35. -/
def depthFlatA : DepthResult ℚ := ⟨16, 16, []⟩

/-- A 16 x 16 depth frame filled with stored depth 0.9: a parallel plane
at z = -2.19, clearly distinct from the 0.5 plane. -/
def depthFlatB : DepthResult ℚ := ⟨16, 16, List.replicate 256 (some (9/10))⟩

/-- A 2 x 2 frame: with the default stride 4 it yields a single sample
point, far below the 30-point minimum, so the mapping cycle is skipped. -/
def depthTiny : DepthResult ℚ := ⟨2, 2, []⟩

/-- A stand-in for `Math.pow` used in closed concrete statements whose
truth does not depend on the value of the power (the relevant code paths
either never evaluate it or only need it somewhere in [0, 1]). -/
def qpowStub : ℚ → ℚ → ℚ := fun _ _ => 1

def idA : String := "surface_a"

def idB : String := "surface_b"

/-- A stored surface last seen at t = 0 with confidence 1. -/
def surfC2 : WorldSurface ℚ := ⟨idA, ⟨0, 0, 1⟩, 0, ⟨0, 0, 0⟩, 1, 1, 0⟩

/-- A stored surface last seen at t = 100 with confidence 0.9. -/
def surfC7 : WorldSurface ℚ := ⟨idB, ⟨0, 1, 0⟩, 1, ⟨0, 0, 0⟩, 1/2, 9/10, 100⟩

/-- A unit-normal surface over ℝ (for the unit-length witness). -/
def surfR : WorldSurface ℝ := ⟨idA, ⟨0, 0, 1⟩, 0, ⟨0, 0, 0⟩, 1, 1, 0⟩

/-- The plane candidate fitted by RANSAC draw `(0, 1, 8)` on the samples
of `depthFlatA` (all on the camera-space plane z = -1.35). -/
def candA : PlaneCandidate ℚ := ⟨⟨0, 0, -1⟩, -27/20, ⟨-9/100, 9/100, -27/20⟩, 9/5, 1⟩

/-- The plane candidate fitted by RANSAC draw `(0, 1, 8)` on the samples
of `depthFlatB` (the parallel plane z = -2.19). -/
def candB : PlaneCandidate ℚ := ⟨⟨0, 0, -1⟩, -219/100, ⟨-73/500, 73/500, -219/100⟩, 2, 1⟩

/-- The surface produced by one `updateFromDepth` call on `depthFlatA`
with the RANSAC draw `(0, 1, 8)` at time 0 (all samples lie on the plane
z = -1.35, the fitted unit normal is (0, 0, -1)). -/
def surfFlatA : WorldSurface ℚ :=
  ⟨idA, ⟨0, 0, -1⟩, -27/20, ⟨-9/100, 9/100, -27/20⟩, 9/5, 1, 0⟩

/-- A controller state in tracker mode (fresh otherwise). -/
noncomputable def ctrlAlva : CtrlState ℝ := { initCtrlState 640 480 with alvaActive := true }

/-- A tick arriving 5 ms after the last tracker invocation: inside the
1000/60 ms throttle window. -/
noncomputable def tick0 : TickInput := ⟨5, 1/60, 640, 480, none, none, []⟩

end ConcreteInputs

section MapperLemmas

variable {K : Type} [LinearOrderedField K] [FloorRing K]

theorem updateFromDepth_skip_short (sqrtFn : K → K) (qpow : K → K → K)
    (opts : PlaneMapperOptions K) (surfaces : List (WorldSurface K)) (depth : DepthResult K)
    (cam : CameraIntrinsics K) (pose : TrackingPose K) (scale now : K)
    (draws : List (ℕ × ℕ × ℕ)) (newId : String)
    (h : (samplePoints opts depth cam pose scale).length < 30) :
    updateFromDepth sqrtFn qpow opts surfaces depth cam pose scale now draws newId = surfaces := by
  simp only [updateFromDepth]
  rw [if_pos h]

theorem updateFromDepth_nofit (sqrtFn : K → K) (qpow : K → K → K)
    (opts : PlaneMapperOptions K) (surfaces : List (WorldSurface K)) (depth : DepthResult K)
    (cam : CameraIntrinsics K) (pose : TrackingPose K) (scale now : K)
    (draws : List (ℕ × ℕ × ℕ)) (newId : String)
    (h30 : ¬ (samplePoints opts depth cam pose scale).length < 30)
    (hfit : ransacPlane sqrtFn opts draws (samplePoints opts depth cam pose scale) = none) :
    updateFromDepth sqrtFn qpow opts surfaces depth cam pose scale now draws newId = surfaces := by
  simp only [updateFromDepth]
  rw [if_neg h30, hfit]

theorem updateFromDepth_fit (sqrtFn : K → K) (qpow : K → K → K)
    (opts : PlaneMapperOptions K) (surfaces : List (WorldSurface K)) (depth : DepthResult K)
    (cam : CameraIntrinsics K) (pose : TrackingPose K) (scale now : K)
    (draws : List (ℕ × ℕ × ℕ)) (newId : String) (plane : PlaneCandidate K)
    (h30 : ¬ (samplePoints opts depth cam pose scale).length < 30)
    (hfit : ransacPlane sqrtFn opts draws (samplePoints opts depth cam pose scale) = some plane) :
    updateFromDepth sqrtFn qpow opts surfaces depth cam pose scale now draws newId =
      decayAndPrune qpow opts now (fuseOrInsert sqrtFn surfaces plane now newId) := by
  simp only [updateFromDepth]
  rw [if_neg h30, hfit]

theorem mem_insertByConfidence {a s : WorldSurface K} {l : List (WorldSurface K)} :
    a ∈ insertByConfidence s l ↔ a = s ∨ a ∈ l := by
  induction l with
  | nil => simp [insertByConfidence]
  | cons t ts ih =>
    simp only [insertByConfidence]
    split
    · simp
    · simp only [List.mem_cons, ih]
      tauto

theorem mem_sortByConfidence {a : WorldSurface K} {l : List (WorldSurface K)} :
    a ∈ sortByConfidence l ↔ a ∈ l := by
  induction l with
  | nil => simp [sortByConfidence]
  | cons t ts ih => simp [sortByConfidence, mem_insertByConfidence, ih]

theorem length_insertByConfidence (s : WorldSurface K) (l : List (WorldSurface K)) :
    (insertByConfidence s l).length = l.length + 1 := by
  induction l with
  | nil => rfl
  | cons t ts ih =>
    simp only [insertByConfidence]
    split
    · rfl
    · simp [ih]

theorem length_sortByConfidence (l : List (WorldSurface K)) :
    (sortByConfidence l).length = l.length := by
  induction l with
  | nil => rfl
  | cons t ts ih => simp [sortByConfidence, length_insertByConfidence, ih]

theorem sorted_insertByConfidence {s : WorldSurface K} {l : List (WorldSurface K)}
    (hl : l.Sorted (fun a b => b.confidence ≤ a.confidence)) :
    (insertByConfidence s l).Sorted (fun a b => b.confidence ≤ a.confidence) := by
  induction l with
  | nil => simp [insertByConfidence]
  | cons t ts ih =>
    rw [List.sorted_cons] at hl
    obtain ⟨ht, hts⟩ := hl
    simp only [insertByConfidence]
    split
    · rename_i h
      rw [List.sorted_cons]
      refine ⟨?_, List.sorted_cons.mpr ⟨ht, hts⟩⟩
      intro b hb
      rcases List.mem_cons.mp hb with rfl | hb
      · exact le_of_lt h
      · exact le_trans (ht b hb) (le_of_lt h)
    · rename_i h
      rw [List.sorted_cons]
      refine ⟨?_, ih hts⟩
      intro b hb
      rcases mem_insertByConfidence.mp hb with rfl | hb
      · exact not_lt.mp h
      · exact ht b hb

theorem sorted_sortByConfidence (l : List (WorldSurface K)) :
    (sortByConfidence l).Sorted (fun a b => b.confidence ≤ a.confidence) := by
  induction l with
  | nil => simp [sortByConfidence]
  | cons t ts ih => exact sorted_insertByConfidence ih

theorem ransacPlane_confidence_bounds {sqrtFn : K → K} {opts : PlaneMapperOptions K}
    {draws : List (ℕ × ℕ × ℕ)} {points : List (Vec3 K)} {p : PlaneCandidate K}
    (h : ransacPlane sqrtFn opts draws points = some p) :
    3/10 ≤ p.confidence ∧ p.confidence ≤ 1 := by
  simp only [ransacPlane] at h
  split at h
  · exact absurd h (by simp)
  · split at h
    · exact absurd h (by simp)
    · rw [Option.some_inj] at h
      subst h
      refine ⟨le_max_left _ _, ?_⟩
      exact max_le (by norm_num) (min_le_left _ _)

theorem decaySurface_confidence_le {qpow : K → K → K} {opts : PlaneMapperOptions K}
    {now : K} {s : WorldSurface K}
    (hq : ∀ e : K, 0 < e → qpow opts.confidenceDecay e ≤ 1)
    (hc : 0 ≤ s.confidence) :
    (decaySurface qpow opts now s).confidence ≤ s.confidence := by
  simp only [decaySurface]
  split
  · rename_i hage
    refine max_le hc ?_
    calc s.confidence * qpow opts.confidenceDecay ((now - s.lastSeen) / 1000)
        ≤ s.confidence * 1 :=
          mul_le_mul_of_nonneg_left (hq _ (div_pos hage (by norm_num))) hc
      _ = s.confidence := mul_one _
  · exact le_refl _

theorem decaySurface_normal (qpow : K → K → K) (opts : PlaneMapperOptions K)
    (now : K) (s : WorldSurface K) :
    (decaySurface qpow opts now s).normal = s.normal := by
  simp only [decaySurface]
  split <;> rfl

theorem mem_decayAndPrune {qpow : K → K → K} {opts : PlaneMapperOptions K}
    {now : K} {l : List (WorldSurface K)} {u : WorldSurface K} :
    u ∈ decayAndPrune qpow opts now l ↔
      (∃ s ∈ l, u = decaySurface qpow opts now s) ∧
        now - u.lastSeen ≤ opts.maxSurfaceAgeMs ∧ 1/5 < u.confidence := by
  unfold decayAndPrune
  rw [mem_sortByConfidence, List.mem_filter, List.mem_map]
  simp only [Bool.and_eq_true, decide_eq_true_eq]
  constructor
  · rintro ⟨⟨s, hs, rfl⟩, h1, h2⟩
    exact ⟨⟨s, hs, rfl⟩, h1, h2⟩
  · rintro ⟨⟨s, hs, rfl⟩, h1, h2⟩
    exact ⟨⟨s, hs, rfl⟩, h1, h2⟩

end MapperLemmas

section FusionLemmas

variable {K : Type} [LinearOrderedField K] [FloorRing K]

theorem fuseOrInsert_confidence {sqrtFn : K → K} {surfaces : List (WorldSurface K)}
    {plane : PlaneCandidate K} {now : K} {newId : String}
    (hsur : ∀ t ∈ surfaces, 0 ≤ t.confidence ∧ t.confidence ≤ 1)
    (hp : 3/10 ≤ plane.confidence ∧ plane.confidence ≤ 1) :
    ∀ u ∈ fuseOrInsert sqrtFn surfaces plane now newId,
      0 ≤ u.confidence ∧ u.confidence ≤ 1 := by
  intro u hu
  unfold fuseOrInsert at hu
  split at hu
  · split at hu
    · rename_i i hidx s hsome
      rcases List.mem_or_eq_of_mem_set hu with h | rfl
      · exact hsur u h
      · have hs := hsur s (List.getElem?_mem hsome)
        unfold fuseSurface
        simp only
        refine ⟨le_min (by norm_num) ?_, min_le_left _ _⟩
        unfold lerp
        nlinarith [hs.1, hp.1]
    · exact hsur u hu
  · rcases List.mem_append.mp hu with h | h
    · exact hsur u h
    · rw [List.mem_singleton] at h
      subst h
      unfold newSurface
      simp only
      exact ⟨le_trans (by norm_num) (le_max_left _ _), max_le (by norm_num) hp.2⟩

end FusionLemmas

section ClaimC2C7

/-- C2 counterexample: `updateFromDepth` on a frame that yields a single
sample point (fewer than 30) returns with the stored surfaces completely
untouched, even though the stored surface is far beyond the maximum age —
the scheduled decay-and-prune step (third conjunct shows it would delete
the surface) is not executed on a skipped cycle. -/
theorem C2_counterexample :
    updateFromDepth ratSqrt qpowStub DEFAULTS [surfC2] depthTiny camQ poseQ 1 1000000 [] idB =
        [surfC2] ∧
      DEFAULTS.maxSurfaceAgeMs < (1000000 : ℚ) - surfC2.lastSeen ∧
      decayAndPrune qpowStub DEFAULTS 1000000 [surfC2] = [] := by
  refine ⟨?_, ?_, ?_⟩ <;> with_unfolding_all decide

/-- C2 (amended): when the mapping cycle is skipped — fewer than 30
sampled points or a failed RANSAC fit — `updateFromDepth` returns with the
surface store unchanged (no decay, no prune); the decay-and-prune step
runs exactly on the cycles that produce a plane candidate. -/
theorem C2_amended {K : Type} [LinearOrderedField K] [FloorRing K] (sqrtFn : K → K)
    (qpow : K → K → K) (opts : PlaneMapperOptions K) (surfaces : List (WorldSurface K))
    (depth : DepthResult K) (cam : CameraIntrinsics K) (pose : TrackingPose K)
    (scale now : K) (draws : List (ℕ × ℕ × ℕ)) (newId : String) :
    ((samplePoints opts depth cam pose scale).length < 30 →
        updateFromDepth sqrtFn qpow opts surfaces depth cam pose scale now draws newId =
          surfaces) ∧
    (ransacPlane sqrtFn opts draws (samplePoints opts depth cam pose scale) = none →
        updateFromDepth sqrtFn qpow opts surfaces depth cam pose scale now draws newId =
          surfaces) ∧
    (∀ plane : PlaneCandidate K, ¬ (samplePoints opts depth cam pose scale).length < 30 →
        ransacPlane sqrtFn opts draws (samplePoints opts depth cam pose scale) = some plane →
        updateFromDepth sqrtFn qpow opts surfaces depth cam pose scale now draws newId =
          decayAndPrune qpow opts now (fuseOrInsert sqrtFn surfaces plane now newId)) := by
  refine ⟨?_, ?_, ?_⟩
  · intro h
    exact updateFromDepth_skip_short sqrtFn qpow opts surfaces depth cam pose scale now draws newId h
  · intro h
    by_cases h30 : (samplePoints opts depth cam pose scale).length < 30
    · exact updateFromDepth_skip_short sqrtFn qpow opts surfaces depth cam pose scale now draws newId h30
    · exact updateFromDepth_nofit sqrtFn qpow opts surfaces depth cam pose scale now draws newId h30 h
  · intro plane h30 hfit
    exact updateFromDepth_fit sqrtFn qpow opts surfaces depth cam pose scale now draws newId plane h30 hfit

/-- Witness for the amended C2 at a concrete skipped cycle. -/
theorem C2_amended_witness :
    (samplePoints (DEFAULTS : PlaneMapperOptions ℚ) depthTiny camQ poseQ 1).length < 30 ∧
      updateFromDepth ratSqrt qpowStub DEFAULTS [surfC7] depthTiny camQ poseQ 1 777 [] idA =
        [surfC7] :=
  ⟨by with_unfolding_all decide,
   (C2_amended ratSqrt qpowStub DEFAULTS [surfC7] depthTiny camQ poseQ 1 777 [] idA).1
     (by with_unfolding_all decide)⟩

/-- C7 counterexample: a surface whose age (5900 ms) exceeds the maximum
age is not removed by an `updateFromDepth` call whose cycle is skipped. -/
theorem C7_counterexample :
    updateFromDepth ratSqrt qpowStub DEFAULTS [surfC7] depthTiny camQ poseQ 1 6000 [] idA =
        [surfC7] ∧
      DEFAULTS.maxSurfaceAgeMs < (6000 : ℚ) - surfC7.lastSeen := by
  refine ⟨?_, ?_⟩ <;> with_unfolding_all decide

/-- C7 (amended): an unobserved surface never gains confidence — a
skipped cycle leaves the store untouched and the decay step multiplies
confidence by a factor at most 1 — and on every cycle that reaches
decay-and-prune, the surviving surfaces all have age within the maximum
and confidence above the floor (anything older or weaker is removed);
on skipped cycles stale surfaces survive until the next fitted cycle. -/
theorem C7_amended {K : Type} [LinearOrderedField K] [FloorRing K] (sqrtFn : K → K)
    (qpow : K → K → K) (opts : PlaneMapperOptions K)
    (hq : ∀ e : K, 0 < e → qpow opts.confidenceDecay e ≤ 1)
    (surfaces : List (WorldSurface K)) (depth : DepthResult K) (cam : CameraIntrinsics K)
    (pose : TrackingPose K) (scale now : K) (draws : List (ℕ × ℕ × ℕ)) (newId : String) :
    ((samplePoints opts depth cam pose scale).length < 30 ∨
        ransacPlane sqrtFn opts draws (samplePoints opts depth cam pose scale) = none →
        updateFromDepth sqrtFn qpow opts surfaces depth cam pose scale now draws newId =
          surfaces) ∧
    (∀ u ∈ decayAndPrune qpow opts now surfaces,
        (now - u.lastSeen ≤ opts.maxSurfaceAgeMs ∧ 1/5 < u.confidence) ∧
          ∃ s ∈ surfaces, u = decaySurface qpow opts now s) ∧
    (∀ s ∈ surfaces, 0 ≤ s.confidence →
        (decaySurface qpow opts now s).confidence ≤ s.confidence) := by
  refine ⟨?_, ?_, ?_⟩
  · rintro (h | h)
    · exact updateFromDepth_skip_short sqrtFn qpow opts surfaces depth cam pose scale now draws newId h
    · by_cases h30 : (samplePoints opts depth cam pose scale).length < 30
      · exact updateFromDepth_skip_short sqrtFn qpow opts surfaces depth cam pose scale now draws newId h30
      · exact updateFromDepth_nofit sqrtFn qpow opts surfaces depth cam pose scale now draws newId h30 h
  · intro u hu
    obtain ⟨hex, h1, h2⟩ := mem_decayAndPrune.mp hu
    exact ⟨⟨h1, h2⟩, hex⟩
  · intro s hs hc
    exact decaySurface_confidence_le hq hc

/-- Witness for the amended C7: the decay step at a concrete surface does
not increase its confidence. -/
theorem C7_amended_witness :
    (0 : ℚ) ≤ surfC7.confidence ∧
      (decaySurface qpowStub DEFAULTS 200 surfC7).confidence ≤ surfC7.confidence :=
  ⟨by with_unfolding_all decide,
   (C7_amended ratSqrt qpowStub DEFAULTS (fun e _ => le_refl 1) [surfC7] depthTiny camQ poseQ
       1 200 [] idA).2.2 surfC7 (List.mem_singleton.mpr rfl) (by with_unfolding_all decide)⟩

end ClaimC2C7

section ClaimC5C6

/-- C5: after every `updateFromDepth` call from the empty initial state,
every stored surface has confidence in [0, 1]; in fact the confidence is
strictly above the pruning floor 0.2, so no surface at or below the floor
ever appears in `getSurfaces()`.  The hypothesis on `qpow` (the model of
`Math.pow`) states that decay factors are at most 1, which holds for the
real power function since 0 < confidenceDecay ≤ 1. -/
theorem C5_confidence_bounds {K : Type} [LinearOrderedField K] [FloorRing K]
    (sqrtFn : K → K) (qpow : K → K → K) (opts : PlaneMapperOptions K)
    (hq : ∀ e : K, 0 < e → qpow opts.confidenceDecay e ≤ 1)
    (l : List (WorldSurface K)) (hl : ReachableSurfaces sqrtFn qpow opts l) :
    ∀ s ∈ getSurfaces l, 0 ≤ s.confidence ∧ s.confidence ≤ 1 ∧ 1/5 < s.confidence := by
  induction hl with
  | init => simp [getSurfaces]
  | step depth cam pose scale now draws newId hprev ih =>
    by_cases h30 : (samplePoints opts depth cam pose scale).length < 30
    · rw [getSurfaces,
        updateFromDepth_skip_short sqrtFn qpow opts _ depth cam pose scale now draws newId h30]
      exact ih
    · cases hfit : ransacPlane sqrtFn opts draws (samplePoints opts depth cam pose scale) with
      | none =>
        rw [getSurfaces,
          updateFromDepth_nofit sqrtFn qpow opts _ depth cam pose scale now draws newId h30 hfit]
        exact ih
      | some plane =>
        rw [getSurfaces,
          updateFromDepth_fit sqrtFn qpow opts _ depth cam pose scale now draws newId plane h30 hfit]
        intro u hu
        obtain ⟨⟨s, hs, rfl⟩, _, hfloor⟩ := mem_decayAndPrune.mp hu
        have hbounds : 0 ≤ s.confidence ∧ s.confidence ≤ 1 :=
          fuseOrInsert_confidence
            (fun t ht => ⟨(ih t ht).1, (ih t ht).2.1⟩)
            (ransacPlane_confidence_bounds hfit) s hs
        refine ⟨le_of_lt (lt_trans (by norm_num) hfloor), ?_, hfloor⟩
        exact le_trans (decaySurface_confidence_le hq hbounds.1) hbounds.2

/-- Witness for C5: the surface stored after one concrete call has
confidence within the bounds. -/
theorem C5_witness :
    (0 : ℚ) ≤ surfFlatA.confidence ∧ surfFlatA.confidence ≤ 1 ∧
      (1/5 : ℚ) < surfFlatA.confidence :=
  C5_confidence_bounds ratSqrt qpowStub optsQ (fun _ _ => le_refl 1) _
    (ReachableSurfaces.step depthFlatA camQ poseQ 1 0 [(0, 1, 8)] idA ReachableSurfaces.init)
    surfFlatA (by with_unfolding_all decide)

/-- C6: at every point of every `updateFromDepth` sequence from the empty
initial state, `getSurfaces()` is sorted by non-increasing confidence. -/
theorem C6_sorted {K : Type} [LinearOrderedField K] [FloorRing K]
    (sqrtFn : K → K) (qpow : K → K → K) (opts : PlaneMapperOptions K)
    (l : List (WorldSurface K)) (hl : ReachableSurfaces sqrtFn qpow opts l) :
    (getSurfaces l).Sorted (fun a b => b.confidence ≤ a.confidence) := by
  induction hl with
  | init => simp [getSurfaces]
  | step depth cam pose scale now draws newId hprev ih =>
    by_cases h30 : (samplePoints opts depth cam pose scale).length < 30
    · rw [getSurfaces,
        updateFromDepth_skip_short sqrtFn qpow opts _ depth cam pose scale now draws newId h30]
      exact ih
    · cases hfit : ransacPlane sqrtFn opts draws (samplePoints opts depth cam pose scale) with
      | none =>
        rw [getSurfaces,
          updateFromDepth_nofit sqrtFn qpow opts _ depth cam pose scale now draws newId h30 hfit]
        exact ih
      | some plane =>
        rw [getSurfaces,
          updateFromDepth_fit sqrtFn qpow opts _ depth cam pose scale now draws newId plane h30 hfit]
        exact sorted_sortByConfidence _

/-- Witness for C6 at a concrete one-call state. -/
theorem C6_witness :
    (getSurfaces
        (updateFromDepth ratSqrt qpowStub optsQ [] depthFlatA camQ poseQ 1 5 [(0, 1, 8)] idB)).Sorted
      (fun a b => b.confidence ≤ a.confidence) :=
  C6_sorted ratSqrt qpowStub optsQ _
    (ReachableSurfaces.step depthFlatA camQ poseQ 1 5 [(0, 1, 8)] idB ReachableSurfaces.init)

end ClaimC5C6

section ClaimC1

/-- A freshly seen surface is not decayed. -/
theorem decaySurface_fresh {K : Type} [LinearOrderedField K] [FloorRing K]
    {qpow : K → K → K} {opts : PlaneMapperOptions K} {now : K} {s : WorldSurface K}
    (h : s.lastSeen = now) : decaySurface qpow opts now s = s := by
  simp [decaySurface, h]

/-- If every surface was seen exactly now and is above the floor,
decay-and-prune only re-sorts. -/
theorem decayAndPrune_fresh {K : Type} [LinearOrderedField K] [FloorRing K]
    {qpow : K → K → K} {opts : PlaneMapperOptions K} {now : K} {l : List (WorldSurface K)}
    (h : ∀ s ∈ l, s.lastSeen = now ∧ 1/5 < s.confidence)
    (hage : 0 ≤ opts.maxSurfaceAgeMs) :
    decayAndPrune qpow opts now l = sortByConfidence l := by
  unfold decayAndPrune
  congr 1
  induction l with
  | nil => rfl
  | cons a l ih =>
    have ha := h a (List.mem_cons_self a l)
    have hl := ih fun s hs => h s (List.mem_cons_of_mem a hs)
    have hcond : (decide (now - a.lastSeen ≤ opts.maxSurfaceAgeMs) &&
        decide (1/5 < a.confidence)) = true := by
      rw [ha.1, sub_self]
      simp only [decide_eq_true_eq, Bool.and_eq_true]
      exact ⟨hage, ha.2⟩
    simp only [List.map_cons, List.filter_cons, decaySurface_fresh ha.1, hcond, if_true, hl]

/-- C1 counterexample: one fixed planar point cloud (every sample on the
camera-space plane z = -1.35, second conjunct) fed to `updateFromDepth`
twice ends with TWO stored surfaces: the second RANSAC draw `(0, 8, 1)`
picks the same triple with opposite orientation, the fitted normal flips
sign, and the merge test `dot ≥ 0.92` fails at dot = -1, so the same
physical plane is inserted again instead of merging. -/
theorem C1_counterexample :
    (updateFromDepth ratSqrt qpowStub optsQ
        (updateFromDepth ratSqrt qpowStub optsQ [] depthFlatA camQ poseQ 1 0 [(0, 1, 8)] idA)
        depthFlatA camQ poseQ 1 0 [(0, 8, 1)] idB).length = 2 ∧
      (samplePoints optsQ depthFlatA camQ poseQ 1).all (fun p => decide (p.z = -27/20)) = true := by
  refine ⟨?_, ?_⟩ <;> with_unfolding_all decide

/-- C1 (amended): feeding point clouds that fit the same plane twice
merges into exactly one stored surface provided the two RANSAC fits agree
in normal orientation (stored-normal · candidate-normal ≥ 0.92 and
plane-constant difference < 0.25) — the merge test uses the signed normal,
so a second fit with the opposite orientation of the same physical plane
duplicates it (see the counterexample).  A candidate failing the test
against the stored surface is inserted as a second, distinct surface. -/
theorem C1_amended {K : Type} [LinearOrderedField K] [FloorRing K] (sqrtFn : K → K)
    (qpow : K → K → K) (opts : PlaneMapperOptions K) (depth₁ depth₂ : DepthResult K)
    (cam : CameraIntrinsics K) (pose : TrackingPose K) (scale t : K)
    (draws₁ draws₂ : List (ℕ × ℕ × ℕ)) (id₁ id₂ : String) (cand₁ cand₂ : PlaneCandidate K)
    (hage : 0 ≤ opts.maxSurfaceAgeMs)
    (h30a : ¬ (samplePoints opts depth₁ cam pose scale).length < 30)
    (hfit1 : ransacPlane sqrtFn opts draws₁ (samplePoints opts depth₁ cam pose scale) = some cand₁)
    (h30b : ¬ (samplePoints opts depth₂ cam pose scale).length < 30)
    (hfit2 : ransacPlane sqrtFn opts draws₂ (samplePoints opts depth₂ cam pose scale) = some cand₂) :
    updateFromDepth sqrtFn qpow opts [] depth₁ cam pose scale 0 draws₁ id₁ =
        [newSurface id₁ cand₁ 0] ∧
      (23/25 ≤ (newSurface id₁ cand₁ 0).normal.dot cand₂.normal →
        |(newSurface id₁ cand₁ 0).constant - cand₂.constant| < 1/4 →
        (updateFromDepth sqrtFn qpow opts [newSurface id₁ cand₁ 0] depth₂ cam pose scale t
            draws₂ id₂).length = 1) ∧
      (¬ (23/25 ≤ (newSurface id₁ cand₁ 0).normal.dot cand₂.normal ∧
            |(newSurface id₁ cand₁ 0).constant - cand₂.constant| < 1/4) →
        (updateFromDepth sqrtFn qpow opts [newSurface id₁ cand₁ 0] depth₂ cam pose scale 0
            draws₂ id₂).length = 2) := by
  have hc1 := ransacPlane_confidence_bounds hfit1
  have hc2 := ransacPlane_confidence_bounds hfit2
  have hconf1 : (1 : K)/5 < (newSurface id₁ cand₁ 0).confidence := by
    unfold newSurface
    simp only
    exact lt_of_lt_of_le (by norm_num) (le_max_left _ _)
  refine ⟨?_, ?_, ?_⟩
  · rw [updateFromDepth_fit sqrtFn qpow opts [] depth₁ cam pose scale 0 draws₁ id₁ cand₁ h30a hfit1]
    have hfo : fuseOrInsert sqrtFn [] cand₁ 0 id₁ = [newSurface id₁ cand₁ 0] := by
      unfold fuseOrInsert findSimilarIdx
      rfl
    rw [hfo, decayAndPrune_fresh (fun s hs => ?_) hage]
    · simp [sortByConfidence, insertByConfidence]
    · rw [List.mem_singleton] at hs
      subst hs
      exact ⟨rfl, hconf1⟩
  · intro hdot hdist
    rw [updateFromDepth_fit sqrtFn qpow opts _ depth₂ cam pose scale t draws₂ id₂ cand₂ h30b hfit2]
    have hfo : fuseOrInsert sqrtFn [newSurface id₁ cand₁ 0] cand₂ t id₂ =
        [fuseSurface sqrtFn (newSurface id₁ cand₁ 0) cand₂ t] := by
      unfold fuseOrInsert findSimilarIdx
      rw [if_pos ⟨hdot, hdist⟩]
      rfl
    rw [hfo, decayAndPrune_fresh (fun s hs => ?_) hage]
    · simp [sortByConfidence, insertByConfidence]
    · rw [List.mem_singleton] at hs
      subst hs
      refine ⟨rfl, ?_⟩
      unfold fuseSurface
      simp only
      refine lt_min (by norm_num) ?_
      unfold lerp
      have h1 : (1 : K)/2 ≤ (newSurface id₁ cand₁ 0).confidence := le_max_left _ _
      nlinarith [hc2.1]
  · intro hne
    rw [updateFromDepth_fit sqrtFn qpow opts _ depth₂ cam pose scale 0 draws₂ id₂ cand₂ h30b hfit2]
    have hfo : fuseOrInsert sqrtFn [newSurface id₁ cand₁ 0] cand₂ 0 id₂ =
        [newSurface id₁ cand₁ 0, newSurface id₂ cand₂ 0] := by
      unfold fuseOrInsert findSimilarIdx
      rw [if_neg hne]
      rfl
    have hfresh : ∀ s ∈ [newSurface id₁ cand₁ 0, newSurface id₂ cand₂ 0],
        s.lastSeen = (0 : K) ∧ 1/5 < s.confidence := by
      intro s hs
      rcases List.mem_cons.mp hs with rfl | hs
      · exact ⟨rfl, hconf1⟩
      · rw [List.mem_singleton] at hs
        subst hs
        refine ⟨rfl, ?_⟩
        unfold newSurface
        simp only
        exact lt_of_lt_of_le (by norm_num) (le_max_left _ _)
    rw [hfo, decayAndPrune_fresh hfresh hage, length_sortByConfidence]
    rfl

/-- Witness for the amended C1: the same cloud fitted twice with the same
draw merges into one surface. -/
theorem C1_amended_witness :
    (¬ (samplePoints optsQ depthFlatA camQ poseQ 1).length < 30) ∧
      ransacPlane ratSqrt optsQ [(0, 1, 8)] (samplePoints optsQ depthFlatA camQ poseQ 1) =
        some candA ∧
      (updateFromDepth ratSqrt qpowStub optsQ [newSurface idA candA 0] depthFlatA camQ poseQ 1
          2500 [(0, 1, 8)] idB).length = 1 :=
  ⟨by with_unfolding_all decide, by with_unfolding_all decide,
   (C1_amended ratSqrt qpowStub optsQ depthFlatA depthFlatA camQ poseQ 1 2500
       [(0, 1, 8)] [(0, 1, 8)] idA idB candA candA (by with_unfolding_all decide)
       (by with_unfolding_all decide) (by with_unfolding_all decide)
       (by with_unfolding_all decide) (by with_unfolding_all decide)).2.1
     (by with_unfolding_all decide) (by with_unfolding_all decide)⟩

end ClaimC1

section ClaimC10

theorem length_filterMap_of_isSome {α β : Type} (f : α → Option β) :
    ∀ l : List α, (∀ x ∈ l, (f x).isSome = true) → (l.filterMap f).length = l.length := by
  intro l
  induction l with
  | nil => intro _; rfl
  | cons a l ih =>
    intro h
    have ha := h a (List.mem_cons_self a l)
    rcases hfa : f a with _ | b
    · rw [hfa] at ha
      exact absurd ha (by simp)
    · rw [List.filterMap_cons, hfa]
      simp only [List.length_cons]
      rw [ih fun x hx => h x (List.mem_cons_of_mem a hx)]

/-- C10: a depth read past the end of the `depth01` array is not skipped:
the `?? 0.5` default puts it at mid-range depth 0.5, inside the default
valid range [0.02, 0.98], so the pixel becomes a world-space sample point
— it behaves exactly like a stored entry of 0.5 (first conjunct) — while
the only rejected pixels are those whose stored entry is non-finite or
outside the valid range (remaining conjuncts).  With a fully missing
buffer, every strided pixel of `samplePoints` therefore yields a point
(last conjunct). -/
theorem C10_oob_reads_default (depth : DepthResult ℚ) (cam : CameraIntrinsics ℚ)
    (pose : TrackingPose ℚ) (scale : ℚ) (x y : ℕ) :
    (depth.depth01.length ≤ y * depth.width + x →
        pixelSample DEFAULTS depth cam pose scale x y =
            pixelSample DEFAULTS
              ⟨depth.width, depth.height,
                List.replicate (y * depth.width + x + 1) (some (1/2))⟩ cam pose scale x y ∧
          (pixelSample DEFAULTS depth cam pose scale x y).isSome = true ∧
          DEFAULTS.minDepth01 ≤ (1/2 : ℚ) ∧ (1/2 : ℚ) ≤ DEFAULTS.maxDepth01) ∧
      (∀ d : ℚ, depth.depth01[y * depth.width + x]? = some (some d) →
        (pixelSample DEFAULTS depth cam pose scale x y = none ↔
          d < DEFAULTS.minDepth01 ∨ DEFAULTS.maxDepth01 < d)) ∧
      (depth.depth01[y * depth.width + x]? = some none →
        pixelSample DEFAULTS depth cam pose scale x y = none) ∧
      (∀ w h : ℕ,
        (samplePoints DEFAULTS (⟨w, h, []⟩ : DepthResult ℚ) cam pose scale).length =
          (strideSeq h 4).length * (strideSeq w 4).length) := by
  refine ⟨?_, ?_, ?_, ?_⟩
  · intro hoob
    have hread : depth.depth01[y * depth.width + x]? = none := List.getElem?_eq_none hoob
    have hrep : (List.replicate (y * depth.width + x + 1)
        (some (1/2 : ℚ)))[y * depth.width + x]? = some (some (1/2)) := by
      rw [List.getElem?_replicate]
      simp
    refine ⟨?_, ?_, by norm_num [DEFAULTS], by norm_num [DEFAULTS]⟩
    · simp only [pixelSample, hread, hrep]
    · simp only [pixelSample, hread]
      norm_num [DEFAULTS]
  · intro d hd
    simp only [pixelSample, hd]
    constructor
    · intro h
      by_contra hrange
      rw [if_neg hrange] at h
      exact Option.some_ne_none _ h
    · intro hrange
      rw [if_pos hrange]
  · intro hd
    simp only [pixelSample, hd]
  · intro w h
    simp only [samplePoints]
    have hstride : (max 1 ⌊(DEFAULTS : PlaneMapperOptions ℚ).sampleStride⌋).toNat = 4 := by
      with_unfolding_all decide
    rw [hstride]
    have hrow : ∀ yy : ℕ,
        ((strideSeq w 4).filterMap fun xx =>
          pixelSample DEFAULTS (⟨w, h, []⟩ : DepthResult ℚ) cam pose scale xx yy).length =
          (strideSeq w 4).length := by
      intro yy
      apply length_filterMap_of_isSome
      intro xx _
      simp only [pixelSample, List.getElem?_nil]
      norm_num [DEFAULTS]
    induction (strideSeq h 4) with
    | nil => simp
    | cons yy ys ih =>
      simp only [List.flatMap_cons, List.length_append, hrow yy, ih, List.length_cons]
      ring

/-- Witness for C10 at a concrete out-of-bounds pixel. -/
theorem C10_witness :
    depthTiny.depth01.length ≤ 1 * depthTiny.width + 1 ∧
      (pixelSample DEFAULTS depthTiny camQ poseQ 1 1 1).isSome = true :=
  ⟨by with_unfolding_all decide,
   ((C10_oob_reads_default depthTiny camQ poseQ 1 1 1).1
     (by with_unfolding_all decide)).2.1⟩

end ClaimC10

section ClaimC3C4

/-- C3: in an environment with no tracker module and no
device-orientation API, `start()` resolves without throwing, the status
becomes `unavailable`, and `getPose()` afterwards returns the identity
pose (`DEFAULT_POSE`: position (0,0,0), identity quaternion), which
`start` never touches. -/
theorem C3_unavailable (env : StartEnv) (width height : ℕ)
    (hmod : env.moduleLoads = false) (hdo : env.hasDeviceOrientationAPI = false) :
    Tracking.start env ((initCtrlState width height : CtrlState ℝ)) =
        Except.ok { (initCtrlState width height : CtrlState ℝ) with status := .unavailable } ∧
      Tracking.getPose { (initCtrlState width height : CtrlState ℝ) with status := .unavailable } =
        DEFAULT_POSE ∧
      DEFAULT_POSE = (⟨⟨0, 0, 0⟩, ⟨0, 0, 0, 1⟩⟩ : TrackingPose ℝ) := by
  refine ⟨?_, rfl, rfl⟩
  simp only [Tracking.start, hmod, hdo]
  rfl

/-- Witness for C3 at a concrete environment. -/
theorem C3_witness :
    Tracking.start ⟨false, true, false, false, none⟩ ((initCtrlState 640 480 : CtrlState ℝ)) =
      Except.ok { (initCtrlState 640 480 : CtrlState ℝ) with status := .unavailable } :=
  (C3_unavailable ⟨false, true, false, false, none⟩ 640 480 rfl rfl).1

/-- C4 counterexample: when the tracker module loads but its
`Initialize` promise rejects, `start()` itself rejects — that `await`
sits outside every try/catch — so a collaborator failure exists that is
not reported solely through the status value. -/
theorem C4_counterexample :
    Tracking.start ⟨true, false, true, false, none⟩ ((initCtrlState 640 480 : CtrlState ℝ)) =
      Except.error () := rfl

/-- C4 (amended): `start()` never rejects except in the single case
where the tracker module loads and its `Initialize` call rejects;
module absence, permission denial, a throwing permission request and
missing sensors are all reported through the status value alone. -/
theorem C4_amended (env : StartEnv) (width height : ℕ)
    (h : env.moduleLoads = true → env.initResolves = true) :
    (Tracking.start env ((initCtrlState width height : CtrlState ℝ))).isOk = true := by
  unfold Tracking.start
  cases hm : env.moduleLoads with
  | true => simp [hm, h hm, Except.isOk, Except.toBool]
  | false =>
    cases hdo : env.hasDeviceOrientationAPI with
    | false => simp [hm, hdo, Except.isOk, Except.toBool]
    | true =>
      cases hpr : env.permissionRequired with
      | false => simp [hm, hdo, hpr, Except.isOk, Except.toBool]
      | true =>
        rcases hp : env.permissionOutcome with _ | g
        · simp [hm, hdo, hpr, hp, Except.isOk, Except.toBool]
        · cases g <;> simp [hm, hdo, hpr, hp, Except.isOk, Except.toBool]

/-- Witness for the amended C4: a permission-denied environment still
resolves. -/
theorem C4_amended_witness :
    (Tracking.start ⟨false, false, true, true, some false⟩
        ((initCtrlState 320 240 : CtrlState ℝ))).isOk = true :=
  C4_amended ⟨false, false, true, true, some false⟩ 320 240
    (fun hc => (Bool.false_ne_true hc).elim)

end ClaimC3C4

section ClaimC8

theorem applyPrediction_preserves (s : CtrlState ℝ) (now dt : ℝ) :
    (Tracking.applyPrediction s now dt).trackerCalls = s.trackerCalls ∧
      (Tracking.applyPrediction s now dt).lastAlvaT = s.lastAlvaT := by
  cases h : s.lastRawPose with
  | none => simp [Tracking.applyPrediction, h]
  | some lrp =>
    simp only [Tracking.applyPrediction, h]
    split
    · exact ⟨rfl, rfl⟩
    · exact ⟨rfl, rfl⟩

/-- C8: with the tracker active and video frames available, a tick that
arrives before the 1000/60 ms throttle window has elapsed does not invoke
the tracker (the ghost invocation counter is unchanged) and only runs the
prediction path on the pose, whose motion-model extrapolation window is
capped at 0.12 s past the last raw pose; and whenever the tracker is
invoked, the full throttle interval has elapsed since the previous
invocation. -/
theorem C8_throttle (s : CtrlState ℝ) (inp : TickInput)
    (halva : s.alvaActive = true) (hw : 0 < inp.videoW) (hh : 0 < inp.videoH) :
    (inp.now - s.lastAlvaT < 1000 / max 1 (SLAM_TARGET_FPS : ℝ) →
        Tracking.update s inp =
            Tracking.applyPrediction (Tracking.bumpFrameStats s inp.now) inp.now inp.dt ∧
          (Tracking.update s inp).trackerCalls = s.trackerCalls ∧
          (Tracking.update s inp).lastAlvaT = s.lastAlvaT) ∧
      ((Tracking.update s inp).trackerCalls ≠ s.trackerCalls →
        1000 / max 1 (SLAM_TARGET_FPS : ℝ) ≤ inp.now - s.lastAlvaT) ∧
      Tracking.predictionWindow inp.now s.lastRawT ≤ 12/100 := by
  have key : inp.now - s.lastAlvaT < 1000 / max 1 (SLAM_TARGET_FPS : ℝ) →
      Tracking.update s inp =
        Tracking.applyPrediction (Tracking.bumpFrameStats s inp.now) inp.now inp.dt := by
    intro hlt
    simp only [Tracking.update]
    rw [if_pos (show (Tracking.bumpFrameStats s inp.now).alvaActive = true from halva),
      if_pos ⟨hw, hh⟩, if_pos (show inp.now - (Tracking.bumpFrameStats s inp.now).lastAlvaT <
        1000 / max 1 (SLAM_TARGET_FPS : ℝ) from hlt)]
  refine ⟨?_, ?_, min_le_left _ _⟩
  · intro hlt
    have hupd := key hlt
    refine ⟨hupd, ?_, ?_⟩
    · rw [hupd]
      exact (applyPrediction_preserves (Tracking.bumpFrameStats s inp.now) inp.now inp.dt).1
    · rw [hupd]
      exact (applyPrediction_preserves (Tracking.bumpFrameStats s inp.now) inp.now inp.dt).2
  · intro hne
    by_contra hnot
    push_neg at hnot
    apply hne
    rw [key hnot]
    exact (applyPrediction_preserves (Tracking.bumpFrameStats s inp.now) inp.now inp.dt).1

/-- Witness for C8 at a concrete throttled tick. -/
theorem C8_witness :
    (Tracking.update ctrlAlva tick0).trackerCalls = ctrlAlva.trackerCalls ∧
      Tracking.predictionWindow tick0.now ctrlAlva.lastRawT ≤ 12/100 :=
  ⟨((C8_throttle ctrlAlva tick0 rfl (by decide) (by decide)
      ).1 (by
        show (5 : ℝ) - 0 < 1000 / max 1 ((SLAM_TARGET_FPS : ℕ) : ℝ)
        rw [show ((SLAM_TARGET_FPS : ℕ) : ℝ) = 60 by norm_num [SLAM_TARGET_FPS],
          max_eq_right (by norm_num : (1 : ℝ) ≤ 60)]
        norm_num)).2.1,
   (C8_throttle ctrlAlva tick0 rfl (by decide) (by decide)).2.2⟩

end ClaimC8

section QuatLemmas

theorem Quat.normSq_nonneg (q : Quat ℝ) : 0 ≤ q.normSq := by
  unfold Quat.normSq
  have hx := mul_self_nonneg q.x
  have hy := mul_self_nonneg q.y
  have hz := mul_self_nonneg q.z
  have hw := mul_self_nonneg q.w
  linarith

theorem Quat.neg_normSq (q : Quat ℝ) : (Quat.neg q).normSq = q.normSq := by
  unfold Quat.neg Quat.normSq
  ring

theorem Quat.dot_neg (a b : Quat ℝ) : a.dot (Quat.neg b) = -(a.dot b) := by
  unfold Quat.dot Quat.neg
  ring

theorem Quat.normalizeQ_unit (q : Quat ℝ) : (Quat.normalizeQ q).normSq = 1 := by
  simp only [Quat.normalizeQ]
  by_cases hl : Real.sqrt q.normSq = 0
  · rw [if_pos hl]
    unfold Quat.normSq
    norm_num
  · rw [if_neg hl]
    have h0 : 0 ≤ q.normSq := Quat.normSq_nonneg q
    have hsq : Real.sqrt q.normSq * Real.sqrt q.normSq = q.normSq := Real.mul_self_sqrt h0
    have hne : q.normSq ≠ 0 := fun h => hl (by rw [h, Real.sqrt_zero])
    have hcalc : Quat.normSq ⟨q.x / Real.sqrt q.normSq, q.y / Real.sqrt q.normSq,
        q.z / Real.sqrt q.normSq, q.w / Real.sqrt q.normSq⟩ =
        q.normSq / (Real.sqrt q.normSq * Real.sqrt q.normSq) := by
      unfold Quat.normSq
      ring
    rw [hcalc, hsq, div_self hne]

theorem Quat.normSq_linComb (a b : Quat ℝ) (r s : ℝ) :
    Quat.normSq ⟨a.x * r + b.x * s, a.y * r + b.y * s, a.z * r + b.z * s, a.w * r + b.w * s⟩ =
      r ^ 2 * a.normSq + 2 * r * s * (a.dot b) + s ^ 2 * b.normSq := by
  unfold Quat.normSq Quat.dot
  ring

theorem cos_sin_atan2 (c S : ℝ) (hc : 0 ≤ c) (hS : 0 < S) (h : c ^ 2 + S ^ 2 = 1) :
    Real.cos (atan2R S c) = c ∧ Real.sin (atan2R S c) = S := by
  rcases eq_or_lt_of_le hc with heq | hpos
  · have hS1 : S = 1 := by nlinarith
    unfold atan2R
    rw [if_neg (by rw [← heq]; exact lt_irrefl 0), if_neg (by rw [← heq]; exact lt_irrefl 0),
      if_pos hS]
    rw [← heq, hS1]
    exact ⟨Real.cos_pi_div_two, Real.sin_pi_div_two⟩
  · unfold atan2R
    rw [if_pos hpos]
    have hcne : c ≠ 0 := ne_of_gt hpos
    have h1 : 1 + (S / c) ^ 2 = 1 / c ^ 2 := by
      field_simp
      linarith [h]
    have h2 : Real.sqrt (1 + (S / c) ^ 2) = 1 / c := by
      rw [h1, one_div, Real.sqrt_inv, Real.sqrt_sq hpos.le, one_div]
    constructor
    · rw [Real.cos_arctan, h2]
      field_simp
    · rw [Real.sin_arctan, h2]
      field_simp

theorem slerp_final_unit (qa qb2 : Quat ℝ) (c t : ℝ)
    (ha : qa.normSq = 1) (hb : qb2.normSq = 1) (hdot : qa.dot qb2 = c)
    (hc0 : 0 ≤ c) (heps : ¬ (1 - c * c ≤ numEpsilon)) :
    Quat.normSq
      ⟨qa.x * (Real.sin ((1 - t) * atan2R (Real.sqrt (1 - c * c)) c) / Real.sqrt (1 - c * c)) +
         qb2.x * (Real.sin (t * atan2R (Real.sqrt (1 - c * c)) c) / Real.sqrt (1 - c * c)),
       qa.y * (Real.sin ((1 - t) * atan2R (Real.sqrt (1 - c * c)) c) / Real.sqrt (1 - c * c)) +
         qb2.y * (Real.sin (t * atan2R (Real.sqrt (1 - c * c)) c) / Real.sqrt (1 - c * c)),
       qa.z * (Real.sin ((1 - t) * atan2R (Real.sqrt (1 - c * c)) c) / Real.sqrt (1 - c * c)) +
         qb2.z * (Real.sin (t * atan2R (Real.sqrt (1 - c * c)) c) / Real.sqrt (1 - c * c)),
       qa.w * (Real.sin ((1 - t) * atan2R (Real.sqrt (1 - c * c)) c) / Real.sqrt (1 - c * c)) +
         qb2.w * (Real.sin (t * atan2R (Real.sqrt (1 - c * c)) c) / Real.sqrt (1 - c * c))⟩ = 1 := by
  have hpos : 0 < 1 - c * c := by
    have : (0 : ℝ) < numEpsilon := by
      unfold numEpsilon
      positivity
    linarith [lt_of_not_le heps]
  set S := Real.sqrt (1 - c * c) with hSdef
  have hS : 0 < S := Real.sqrt_pos.mpr hpos
  have hS2 : S ^ 2 = 1 - c * c := Real.sq_sqrt hpos.le
  have hcs : c ^ 2 + S ^ 2 = 1 := by rw [hS2]; ring
  obtain ⟨hcos, hsin⟩ := cos_sin_atan2 c S hc0 hS hcs
  set θ := atan2R S c with hθdef
  have hsub : Real.sin ((1 - t) * θ) =
      S * Real.cos (t * θ) - c * Real.sin (t * θ) := by
    rw [show (1 - t) * θ = θ - t * θ by ring, Real.sin_sub, hcos, hsin]
  rw [Quat.normSq_linComb, ha, hb, hdot, hsub]
  set A := Real.sin (t * θ) with hAdef
  set B := Real.cos (t * θ) with hBdef
  have hAB : A ^ 2 + B ^ 2 = 1 := by
    rw [hAdef, hBdef]
    exact Real.sin_sq_add_cos_sq (t * θ)
  field_simp
  linear_combination (S ^ 6) * hAB + (-(S ^ 4 * A ^ 2)) * hS2

theorem Quat.slerp_unit {qa qb : Quat ℝ} (ha : qa.normSq = 1) (hb : qb.normSq = 1) (t : ℝ) :
    (Quat.slerp qa qb t).normSq = 1 := by
  unfold Quat.slerp
  dsimp only
  split_ifs with ht0 ht1 hneg hc1 heps hc2 heps2
  · exact ha
  · exact hb
  · exact ha
  · exact Quat.normalizeQ_unit _
  · exact slerp_final_unit qa (Quat.neg qb) (-(qa.dot qb)) t ha
      (by rw [Quat.neg_normSq]; exact hb) (by rw [Quat.dot_neg])
      (by linarith [hneg]) heps
  · exact ha
  · exact Quat.normalizeQ_unit _
  · exact slerp_final_unit qa qb (qa.dot qb) t ha hb rfl (le_of_not_lt hneg) heps2

end QuatLemmas

section ClaimC9

theorem CtrlInv_applySmoothing {s : CtrlState ℝ} {raw : TrackingPose ℝ} {dt : ℝ}
    (hs : CtrlInv s) (hr : Quat.normSq raw.quaternion = 1) :
    CtrlInv (Tracking.applySmoothing s raw dt) := by
  unfold Tracking.applySmoothing
  split
  · exact ⟨hr, hs.2.1, hs.2.2⟩
  · exact ⟨Quat.slerp_unit hs.1 hr _, hs.2.1, hs.2.2⟩

theorem CtrlInv_updateJitter {s : CtrlState ℝ} {raw : TrackingPose ℝ} {dt : ℝ}
    (hs : CtrlInv s) : CtrlInv (Tracking.updateJitter s raw dt) := by
  rcases hlr : s.lastRawPose with _ | lrp <;> simp only [Tracking.updateJitter, hlr]
  · exact hs
  · have hlrp : ∀ r : TrackingPose ℝ, some lrp = some r → Quat.normSq r.quaternion = 1 := by
      intro r hrr
      injection hrr with h
      rw [← h]
      exact hs.2.1 lrp hlr
    split_ifs with hdt
    · exact hs
    · exact ⟨hs.1, hlrp, hs.2.2⟩

theorem CtrlInv_updateMotionModel {s : CtrlState ℝ} {raw : TrackingPose ℝ} {now : ℝ}
    (hs : CtrlInv s) (hr : Quat.normSq raw.quaternion = 1) :
    CtrlInv (Tracking.updateMotionModel s raw now) := by
  have hraw : ∀ r : TrackingPose ℝ, some raw = some r → Quat.normSq r.quaternion = 1 := by
    intro r hrr
    injection hrr with h
    rw [← h]
    exact hr
  rcases hlr : s.lastRawPose with _ | lrp <;> simp only [Tracking.updateMotionModel, hlr]
  · exact ⟨hs.1, hraw, hs.2.2⟩
  · split_ifs with h0 hang <;> exact ⟨hs.1, hraw, hs.2.2⟩

theorem CtrlInv_applyPrediction {s : CtrlState ℝ} {now dt : ℝ}
    (hs : CtrlInv s) : CtrlInv (Tracking.applyPrediction s now dt) := by
  rcases hlr : s.lastRawPose with _ | lrp <;> simp only [Tracking.applyPrediction, hlr]
  · exact hs
  · have hlrp : ∀ r : TrackingPose ℝ, some lrp = some r → Quat.normSq r.quaternion = 1 := by
      intro r hrr
      injection hrr with h
      rw [← h]
      exact hs.2.1 lrp hlr
    split_ifs with h0 hang
    · exact hs
    · exact ⟨Quat.slerp_unit hs.1 (Quat.normalizeQ_unit _) _, hlrp, hs.2.2⟩
    · exact ⟨Quat.slerp_unit hs.1 (hs.2.1 lrp hlr) _, hlrp, hs.2.2⟩

theorem CtrlInv_trackLost {s : CtrlState ℝ} {now : ℝ} (hs : CtrlInv s) :
    CtrlInv (Tracking.trackLost s now) := by
  rcases hls : s.lostSince with _ | t0 <;> simp only [Tracking.trackLost, hls] <;>
    split_ifs with h
  · exact hs
  · exact hs
  · exact hs
  · exact hs

theorem CtrlInv_sensorPath (s : CtrlState ℝ) (raw : TrackingPose ℝ) (dt now : ℝ)
    (hs : CtrlInv s) (hr : Quat.normSq raw.quaternion = 1) :
    CtrlInv (Tracking.applySmoothing (Tracking.updateMotionModel
      (Tracking.updateJitter s raw dt) raw now) raw dt) :=
  CtrlInv_applySmoothing (CtrlInv_updateMotionModel (CtrlInv_updateJitter hs) hr) hr

theorem CtrlInv_trackSuccess {s : CtrlState ℝ} {inp : TickInput} {raw : TrackingPose ℝ}
    (hs : CtrlInv s) (hr : Quat.normSq raw.quaternion = 1) :
    CtrlInv (Tracking.trackSuccess s inp raw) := by
  unfold Tracking.trackSuccess
  have h3 := CtrlInv_sensorPath s raw inp.dt inp.now hs hr
  rcases inp.planeRaw with _ | pl
  · exact ⟨h3.1, h3.2.1, h3.2.2⟩
  · exact ⟨h3.1, h3.2.1, h3.2.2⟩

theorem lengthSq_nonneg {K : Type} [LinearOrderedField K] (v : Vec3 K) : 0 ≤ v.lengthSq := by
  unfold Vec3.lengthSq
  have hx := mul_self_nonneg v.x
  have hy := mul_self_nonneg v.y
  have hz := mul_self_nonneg v.z
  linarith

theorem normalize_unit {v : Vec3 ℝ} (hv : v.lengthSq ≠ 0) :
    (v.normalize Real.sqrt).lengthSq = 1 := by
  simp only [Vec3.normalize]
  have h0 : 0 ≤ v.lengthSq := lengthSq_nonneg v
  have hsq : Real.sqrt v.lengthSq * Real.sqrt v.lengthSq = v.lengthSq := Real.mul_self_sqrt h0
  have hl : Real.sqrt v.lengthSq ≠ 0 := by
    intro h
    apply hv
    have := hsq
    rw [h, mul_zero] at this
    exact this.symm
  rw [if_neg hl]
  have hcalc : Vec3.lengthSq ⟨v.x / Real.sqrt v.lengthSq, v.y / Real.sqrt v.lengthSq,
      v.z / Real.sqrt v.lengthSq⟩ =
      v.lengthSq / (Real.sqrt v.lengthSq * Real.sqrt v.lengthSq) := by
    unfold Vec3.lengthSq
    ring
  rw [hcalc, hsq, div_self hv]

theorem lerp_lengthSq_pos {a b : Vec3 ℝ} (ha : a.lengthSq = 1) (hb : b.lengthSq = 1) :
    0 < (a.lerp b (1/5)).lengthSq := by
  have hadd : 0 ≤ (a.add b).lengthSq := lengthSq_nonneg _
  have hexp : (a.add b).lengthSq = a.lengthSq + 2 * (a.dot b) + b.lengthSq := by
    unfold Vec3.add Vec3.lengthSq Vec3.dot
    ring
  have hdot : -1 ≤ a.dot b := by
    rw [hexp, ha, hb] at hadd
    linarith
  have hl : (a.lerp b (1/5)).lengthSq =
      (16 * a.lengthSq + 8 * (a.dot b) + b.lengthSq) / 25 := by
    unfold Vec3.lerp Vec3.lengthSq Vec3.dot
    ring
  rw [hl, ha, hb]
  linarith

theorem foldl_preserve {α β : Type} (P : β → Prop) (f : β → α → β)
    (hstep : ∀ b a, P b → P (f b a)) :
    ∀ (l : List α) (b : β), P b → P (l.foldl f b) := by
  intro l
  induction l with
  | nil => exact fun b h => h
  | cons a l ih => exact fun b h => ih _ (hstep b a h)

theorem ransacLoop_normal_unit (opts : PlaneMapperOptions ℝ) (draws : List (ℕ × ℕ × ℕ))
    (points : List (Vec3 ℝ)) :
    ∀ nc, (ransacLoop Real.sqrt opts draws points).2 = some nc →
      Vec3.lengthSq nc.1 = 1 := by
  unfold ransacLoop
  apply foldl_preserve
    (fun best : List (Vec3 ℝ) × Option (Vec3 ℝ × ℝ) =>
      ∀ nc : Vec3 ℝ × ℝ, best.2 = some nc → Vec3.lengthSq nc.1 = 1)
  · intro b i hb
    rcases hdi : draws[i]? with _ | ⟨ia, ib, ic⟩ <;> try simp only [hdi]
    · exact hb
    · rcases hpa : points[ia]? with _ | a <;> try simp only [hpa]
      · exact hb
      · rcases hpb : points[ib]? with _ | b2 <;> try simp only [hpb]
        · exact hb
        · rcases hpc : points[ic]? with _ | c2 <;> try simp only [hpc]
          · exact hb
          · split_ifs with hdeg hlen
            · exact hb
            · intro nc hnc
              injection hnc with h
              rw [← h]
              apply normalize_unit
              intro hzero
              apply hdeg
              rw [hzero]
              norm_num
            · exact hb
  · intro nc h
    exact absurd h (by simp)

theorem ransacPlane_normal_unit {opts : PlaneMapperOptions ℝ} {draws : List (ℕ × ℕ × ℕ)}
    {points : List (Vec3 ℝ)} {p : PlaneCandidate ℝ}
    (h : ransacPlane Real.sqrt opts draws points = some p) :
    Vec3.lengthSq p.normal = 1 := by
  simp only [ransacPlane] at h
  split at h
  · exact absurd h (by simp)
  · rename_i nc hnc
    split at h
    · exact absurd h (by simp)
    · rw [Option.some_inj] at h
      rw [← h]
      exact ransacLoop_normal_unit opts draws points nc hnc

theorem fuseOrInsert_normal_unit {surfaces : List (WorldSurface ℝ)}
    {plane : PlaneCandidate ℝ} {now : ℝ} {newId : String}
    (hsur : ∀ t ∈ surfaces, Vec3.lengthSq t.normal = 1)
    (hp : Vec3.lengthSq plane.normal = 1) :
    ∀ u ∈ fuseOrInsert Real.sqrt surfaces plane now newId,
      Vec3.lengthSq u.normal = 1 := by
  intro u hu
  unfold fuseOrInsert at hu
  split at hu
  · split at hu
    · rename_i i hidx s hsome
      rcases List.mem_or_eq_of_mem_set hu with h | rfl
      · exact hsur u h
      · have hs := hsur s (List.getElem?_mem hsome)
        unfold fuseSurface
        simp only
        exact normalize_unit (ne_of_gt (lerp_lengthSq_pos hs hp))
    · exact hsur u hu
  · rcases List.mem_append.mp hu with h | h
    · exact hsur u h
    · rw [List.mem_singleton] at h
      subst h
      exact hp

/-- C9: the exposed unit-vector quantities keep squared norm exactly 1 in
the idealized real-arithmetic model (hence norm 1 well within the 1e-5
tolerance of the claim): every controller tick preserves the unit-length
invariant of the smoothed pose quaternion — given that the raw tracker
pose decoded from a proper rotation matrix has a unit quaternion — and
every `updateFromDepth` call keeps every stored surface normal at unit
length. -/
theorem C9_unit_lengths :
    (∀ (s : CtrlState ℝ) (inp : TickInput), CtrlInv s →
        (∀ r, inp.rawPose = some r → Quat.normSq r.quaternion = 1) →
        CtrlInv (Tracking.update s inp)) ∧
      (∀ (qpow : ℝ → ℝ → ℝ) (opts : PlaneMapperOptions ℝ) (l : List (WorldSurface ℝ))
        (depth : DepthResult ℝ) (cam : CameraIntrinsics ℝ) (pose : TrackingPose ℝ)
        (scale now : ℝ) (draws : List (ℕ × ℕ × ℕ)) (newId : String),
        (∀ t ∈ l, Vec3.lengthSq t.normal = 1) →
        ∀ u ∈ updateFromDepth Real.sqrt qpow opts l depth cam pose scale now draws newId,
          Vec3.lengthSq u.normal = 1) := by
  constructor
  · intro s inp hs hraw
    simp only [Tracking.update]
    split_ifs with h1 h2 h3
    · exact CtrlInv_applyPrediction hs
    · cases hr : inp.rawPose with
      | none =>
        simp only [hr]
        exact CtrlInv_applyPrediction (CtrlInv_trackLost hs)
      | some raw =>
        simp only [hr]
        exact CtrlInv_trackSuccess hs (hraw raw hr)
    · exact CtrlInv_applyPrediction hs
    · have h3 := CtrlInv_sensorPath (Tracking.bumpFrameStats s inp.now)
        ⟨(Tracking.bumpFrameStats s inp.now).position,
         (Tracking.bumpFrameStats s inp.now).orientationQ⟩ inp.dt inp.now hs hs.2.2
      exact ⟨h3.1, h3.2.1, h3.2.2⟩
  · intro qpow opts l depth cam pose scale now draws newId hl u hu
    by_cases h30 : (samplePoints opts depth cam pose scale).length < 30
    · rw [updateFromDepth_skip_short Real.sqrt qpow opts l depth cam pose scale now draws
        newId h30] at hu
      exact hl u hu
    · cases hfit : ransacPlane Real.sqrt opts draws (samplePoints opts depth cam pose scale) with
      | none =>
        rw [updateFromDepth_nofit Real.sqrt qpow opts l depth cam pose scale now draws
          newId h30 hfit] at hu
        exact hl u hu
      | some plane =>
        rw [updateFromDepth_fit Real.sqrt qpow opts l depth cam pose scale now draws
          newId plane h30 hfit] at hu
        obtain ⟨⟨s0, hs0, rfl⟩, _, _⟩ := mem_decayAndPrune.mp hu
        rw [decaySurface_normal]
        exact fuseOrInsert_normal_unit hl (ransacPlane_normal_unit hfit) s0 hs0

/-- Witness for C9: one concrete tick from the initial state (identity
pose quaternion) and one concrete skipped mapper call on a unit-normal
surface store. -/
theorem C9_witness :
    CtrlInv (Tracking.update { initCtrlState 640 480 with alvaActive := false } tick0) ∧
      Vec3.lengthSq surfR.normal = 1 := by
  constructor
  · exact C9_unit_lengths.1 { initCtrlState 640 480 with alvaActive := false } tick0
      ⟨by norm_num [initCtrlState, DEFAULT_POSE, Quat.one, Quat.normSq],
       fun r hr => by simp [initCtrlState] at hr,
       by norm_num [initCtrlState, Quat.one, Quat.normSq]⟩
      (fun r hr => by simp [tick0] at hr)
  · have h30 : (samplePoints (DEFAULTS : PlaneMapperOptions ℝ) ⟨0, 0, []⟩ ⟨1, 1⟩
        ⟨⟨0, 0, 0⟩, ⟨0, 0, 0, 1⟩⟩ 1).length < 30 := by
      simp [samplePoints, strideSeq]
    refine C9_unit_lengths.2 (fun _ _ => 1) DEFAULTS [surfR] ⟨0, 0, []⟩ ⟨1, 1⟩
      ⟨⟨0, 0, 0⟩, ⟨0, 0, 0, 1⟩⟩ 1 0 [] idA ?_ surfR ?_
    · intro t ht
      rw [List.mem_singleton] at ht
      subst ht
      norm_num [surfR, Vec3.lengthSq]
    · rw [updateFromDepth_skip_short Real.sqrt (fun _ _ => 1) DEFAULTS [surfR] ⟨0, 0, []⟩
        ⟨1, 1⟩ ⟨⟨0, 0, 0⟩, ⟨0, 0, 0, 1⟩⟩ 1 0 [] idA h30]
      exact List.mem_singleton.mpr rfl

end ClaimC9
